import Mathlib

/-!
Shallow embedding of `opensfm/src/bundle/error/absolute_motion_errors.h`
(OpenSfM bundle-adjustment residual functors) over the real numbers, with
proofs of the specified properties.  The generic scalar type `T` of the
source is instantiated with `ℝ`; Eigen 3-vectors become `Vec3`.
-/

namespace bundle

/-- Eigen `Vec3d` / `Vec3<T>` instantiated at `ℝ`: a real 3-vector. -/
@[ext]
structure Vec3 where
  x : ℝ
  y : ℝ
  z : ℝ

instance : Zero Vec3 := ⟨⟨0, 0, 0⟩⟩
instance : Add Vec3 := ⟨fun u v => ⟨u.x + v.x, u.y + v.y, u.z + v.z⟩⟩
instance : Sub Vec3 := ⟨fun u v => ⟨u.x - v.x, u.y - v.y, u.z - v.z⟩⟩
instance : SMul ℝ Vec3 := ⟨fun t v => ⟨t * v.x, t * v.y, t * v.z⟩⟩

@[simp] theorem Vec3.zero_x : (0 : Vec3).x = 0 := rfl

@[simp] theorem Vec3.zero_y : (0 : Vec3).y = 0 := rfl

@[simp] theorem Vec3.zero_z : (0 : Vec3).z = 0 := rfl

@[simp] theorem Vec3.add_x (u v : Vec3) : (u + v).x = u.x + v.x := rfl

@[simp] theorem Vec3.add_y (u v : Vec3) : (u + v).y = u.y + v.y := rfl

@[simp] theorem Vec3.add_z (u v : Vec3) : (u + v).z = u.z + v.z := rfl

@[simp] theorem Vec3.sub_x (u v : Vec3) : (u - v).x = u.x - v.x := rfl

@[simp] theorem Vec3.sub_y (u v : Vec3) : (u - v).y = u.y - v.y := rfl

@[simp] theorem Vec3.sub_z (u v : Vec3) : (u - v).z = u.z - v.z := rfl

@[simp] theorem Vec3.smul_x (t : ℝ) (v : Vec3) : (t • v).x = t * v.x := rfl

@[simp] theorem Vec3.smul_y (t : ℝ) (v : Vec3) : (t • v).y = t * v.y := rfl

@[simp] theorem Vec3.smul_z (t : ℝ) (v : Vec3) : (t • v).z = t * v.z := rfl

/-- Euclidean dot product, as in `ceres::DotProduct` / explicit sums in the source. -/
def Vec3.dot (u v : Vec3) : ℝ := u.x * v.x + u.y * v.y + u.z * v.z

/-- Cross product, as in `ceres::CrossProduct`. -/
def Vec3.cross (u v : Vec3) : Vec3 :=
  ⟨u.y * v.z - u.z * v.y, u.z * v.x - u.x * v.z, u.x * v.y - u.y * v.x⟩

/-- Euclidean norm of a `Vec3` (Eigen `norm()`). -/
noncomputable def Vec3.norm (v : Vec3) : ℝ :=
  Real.sqrt (v.x * v.x + v.y * v.y + v.z * v.z)

/-- Eigen `normalized()`: the vector divided by its Euclidean norm. -/
noncomputable def Vec3.normalized (v : Vec3) : Vec3 := (v.norm)⁻¹ • v

/-- `diff_between_angles` (lines 63-73): `a - b`, shifted by `2π` once when the
raw difference leaves `[-π, π]`. -/
noncomputable def diff_between_angles (a b : ℝ) : ℝ :=
  if a - b > Real.pi then a - b - 2 * Real.pi
  else if a - b < -Real.pi then a - b + 2 * Real.pi
  else a - b

/-- C1 (counterexample): the source remaps by `2π` at most once, so for
`a - b = 4π` the result is `2π`, outside `(-π, π]`; the claim that the result
always lies in `(-π, π]` is false. -/
theorem diff_between_angles_not_always_in_Ioc :
    diff_between_angles (4 * Real.pi) 0 ∉ Set.Ioc (-Real.pi) Real.pi := by
  have hpi := Real.pi_pos
  unfold diff_between_angles
  rw [if_pos (by nlinarith)]
  intro hmem
  have h2 := hmem.2
  nlinarith

/-- C1 (amended): when `a - b` lies in `[-3π, 3π]`, `diff_between_angles a b`
is `a - b` shifted by `±2π` at most once and lies in the closed interval
`[-π, π]`; moreover `diff_between_angles a a = 0`, and
`diff_between_angles (b + 2π - ε) b = -ε` for `0 < ε < π`. -/
theorem diff_between_angles_spec (a b ε : ℝ)
    (h1 : -(3 * Real.pi) ≤ a - b) (h2 : a - b ≤ 3 * Real.pi)
    (hε0 : 0 < ε) (hεπ : ε < Real.pi) :
    diff_between_angles a b ∈ Set.Icc (-Real.pi) Real.pi ∧
    (diff_between_angles a b = a - b ∨
      diff_between_angles a b = a - b - 2 * Real.pi ∨
      diff_between_angles a b = a - b + 2 * Real.pi) ∧
    diff_between_angles a a = 0 ∧
    diff_between_angles (b + 2 * Real.pi - ε) b = -ε := by
  have hpi := Real.pi_pos
  refine ⟨?_, ?_, ?_, ?_⟩
  · unfold diff_between_angles
    simp only [Set.mem_Icc]
    split_ifs with hgt hlt
    · constructor <;> linarith
    · constructor <;> linarith
    · constructor <;> linarith
  · unfold diff_between_angles
    split_ifs with hgt hlt
    · right; left; rfl
    · right; right; rfl
    · left; rfl
  · unfold diff_between_angles
    rw [sub_self]
    rw [if_neg (by linarith), if_neg (by linarith)]
  · unfold diff_between_angles
    have hd : b + 2 * Real.pi - ε - b = 2 * Real.pi - ε := by ring
    rw [hd, if_pos (by linarith)]
    ring

/-- Witness for C1 at `a = b = 0`, `ε = 1`. -/
theorem diff_between_angles_spec_witness :
    diff_between_angles 0 0 ∈ Set.Icc (-Real.pi) Real.pi ∧
    (diff_between_angles 0 0 = 0 - 0 ∨
      diff_between_angles 0 0 = 0 - 0 - 2 * Real.pi ∨
      diff_between_angles 0 0 = 0 - 0 + 2 * Real.pi) ∧
    diff_between_angles 0 0 = 0 ∧
    diff_between_angles (0 + 2 * Real.pi - 1) 0 = -1 :=
  diff_between_angles_spec 0 0 1
    (by nlinarith [Real.pi_pos]) (by nlinarith [Real.pi_pos])
    (by norm_num) (by nlinarith [Real.pi_gt_three])

/-- Modelled from the spec: `PositionConstraintType` is declared in
`bundle/bundle_adjuster.h`, which is not under `src/`; per the spec it is
"a bitmask over {X, Y, Z}", so the axis flags are three distinct single bits.
This is the X bit. -/
def PositionConstraintType.X : ℕ := 1

/-- Modelled from the spec: the Y bit of the `PositionConstraintType` bitmask
(see `PositionConstraintType.X`). -/
def PositionConstraintType.Y : ℕ := 2

/-- Modelled from the spec: the Z bit of the `PositionConstraintType` bitmask
(see `PositionConstraintType.X`). -/
def PositionConstraintType.Z : ℕ := 4

/-- State of an `AbsolutePositionError` functor after construction
(lines 13-23): the constructor stores `scale_xy = 1/std_deviation_horizontal`
and `scale_z = 1/std_deviation_vertical`. -/
structure AbsolutePositionError where
  pos_prior : Vec3
  scale_xy : ℝ
  scale_z : ℝ
  has_std_deviation_param : Bool
  ptype : ℕ

/-- The `AbsolutePositionError` constructor (lines 13-23), taking the two
standard deviations and storing their reciprocals. -/
noncomputable def AbsolutePositionError.make (pos_prior : Vec3)
    (std_deviation_horizontal std_deviation_vertical : ℝ)
    (has_std_deviation_param : Bool) (ptype : ℕ) : AbsolutePositionError :=
  ⟨pos_prior, 1 / std_deviation_horizontal, 1 / std_deviation_vertical,
    has_std_deviation_param, ptype⟩

/-- `AbsolutePositionError::HasFlag` (lines 51-53): bitwise test
`(type & flag) == flag`. -/
def AbsolutePositionError.HasFlag (e : AbsolutePositionError) (flag : ℕ) : Bool :=
  e.ptype &&& flag == flag

/-- Lines 29-37 of `operator()`: `residual = pos_prior - predicted`, then either
divided throughout by the extra standard-deviation parameter `p[1][0]`
(here `std_deviation_param`) or scaled per axis.  The predicted position
`pos_func_(p)` comes from the external position functor (a template
parameter), so it enters as the argument `predicted`. -/
noncomputable def AbsolutePositionError.scaledResidual (e : AbsolutePositionError)
    (predicted : Vec3) (std_deviation_param : ℝ) : Vec3 :=
  let residual := e.pos_prior - predicted
  if e.has_std_deviation_param then
    ⟨residual.x / std_deviation_param, residual.y / std_deviation_param,
      residual.z / std_deviation_param⟩
  else
    ⟨residual.x * e.scale_xy, residual.y * e.scale_xy, residual.z * e.scale_z⟩

/-- Lines 39-47 of `operator()`: the axis-filter loop over `{X, Y, Z}`;
component `i` is multiplied by `0` when its flag is absent from the mask. -/
def AbsolutePositionError.applyAxisMask (e : AbsolutePositionError) (r : Vec3) : Vec3 :=
  ⟨if e.HasFlag PositionConstraintType.X then r.x else r.x * 0,
   if e.HasFlag PositionConstraintType.Y then r.y else r.y * 0,
   if e.HasFlag PositionConstraintType.Z then r.z else r.z * 0⟩

/-- `AbsolutePositionError::operator()` (lines 25-49): scaling followed by the
axis-filter loop. -/
noncomputable def AbsolutePositionError.residual (e : AbsolutePositionError)
    (predicted : Vec3) (std_deviation_param : ℝ) : Vec3 :=
  e.applyAxisMask (e.scaledResidual predicted std_deviation_param)

/-- C2: with `has_std_deviation_param = false` and all three axis bits set, the
residual is `prior - predicted` with X and Y multiplied by
`1/std_deviation_horizontal` and Z by `1/std_deviation_vertical`; in
particular prior `(0,0,10)`, stds `1` and `2`, predicted `(1,0,10)`, mask
with all axes gives `(-1, 0, 0)`. -/
theorem AbsolutePositionError.residual_all_axes (prior predicted : Vec3)
    (std_h std_v sp : ℝ) (m : ℕ)
    (hx : (AbsolutePositionError.make prior std_h std_v false m).HasFlag
      PositionConstraintType.X = true)
    (hy : (AbsolutePositionError.make prior std_h std_v false m).HasFlag
      PositionConstraintType.Y = true)
    (hz : (AbsolutePositionError.make prior std_h std_v false m).HasFlag
      PositionConstraintType.Z = true) :
    (AbsolutePositionError.make prior std_h std_v false m).residual predicted sp =
      ⟨(prior.x - predicted.x) * (1 / std_h),
       (prior.y - predicted.y) * (1 / std_h),
       (prior.z - predicted.z) * (1 / std_v)⟩ ∧
    (AbsolutePositionError.make ⟨0, 0, 10⟩ 1 2 false 7).residual ⟨1, 0, 10⟩ sp =
      ⟨-1, 0, 0⟩ := by
  constructor
  · unfold AbsolutePositionError.residual AbsolutePositionError.applyAxisMask
      AbsolutePositionError.scaledResidual
    rw [hx, hy, hz]
    simp [AbsolutePositionError.make]
  · unfold AbsolutePositionError.residual AbsolutePositionError.applyAxisMask
      AbsolutePositionError.scaledResidual
    have h7x : (AbsolutePositionError.make ⟨0, 0, 10⟩ 1 2 false 7).HasFlag
        PositionConstraintType.X = true := rfl
    have h7y : (AbsolutePositionError.make ⟨0, 0, 10⟩ 1 2 false 7).HasFlag
        PositionConstraintType.Y = true := rfl
    have h7z : (AbsolutePositionError.make ⟨0, 0, 10⟩ 1 2 false 7).HasFlag
        PositionConstraintType.Z = true := rfl
    rw [h7x, h7y, h7z]
    simp only [AbsolutePositionError.make, Bool.false_eq_true, if_false, if_true]
    ext <;> norm_num

/-- Witness for C2 with mask `7 = X ||| Y ||| Z`. -/
theorem AbsolutePositionError.residual_all_axes_witness :
    (AbsolutePositionError.make ⟨0, 0, 10⟩ 1 2 false 7).residual ⟨1, 0, 10⟩ 0 =
      ⟨((⟨0, 0, 10⟩ : Vec3).x - (⟨1, 0, 10⟩ : Vec3).x) * (1 / 1),
       ((⟨0, 0, 10⟩ : Vec3).y - (⟨1, 0, 10⟩ : Vec3).y) * (1 / 1),
       ((⟨0, 0, 10⟩ : Vec3).z - (⟨1, 0, 10⟩ : Vec3).z) * (1 / 2)⟩ ∧
    (AbsolutePositionError.make ⟨0, 0, 10⟩ 1 2 false 7).residual ⟨1, 0, 10⟩ 0 =
      ⟨-1, 0, 0⟩ :=
  AbsolutePositionError.residual_all_axes ⟨0, 0, 10⟩ ⟨1, 0, 10⟩ 1 2 0 7 rfl rfl rfl

/-- C3: masked components are exactly `0` after scaling while enabled
components are unchanged by masking (the residual stays 3-dimensional), and
with the mask containing only the Y bit the residual is
`(0, scale_xy * (prior_y - predicted_y), 0)`. -/
theorem AbsolutePositionError.residual_mask_y_only (prior predicted : Vec3)
    (sxy sz sp : ℝ) (m : ℕ)
    (hx : (⟨prior, sxy, sz, false, m⟩ : AbsolutePositionError).HasFlag
      PositionConstraintType.X = false)
    (hy : (⟨prior, sxy, sz, false, m⟩ : AbsolutePositionError).HasFlag
      PositionConstraintType.Y = true)
    (hz : (⟨prior, sxy, sz, false, m⟩ : AbsolutePositionError).HasFlag
      PositionConstraintType.Z = false) :
    (⟨prior, sxy, sz, false, m⟩ : AbsolutePositionError).residual predicted sp =
      ⟨0, sxy * (prior.y - predicted.y), 0⟩ ∧
    (∀ (e : AbsolutePositionError) (pred : Vec3) (sp2 : ℝ),
      (e.residual pred sp2).x =
        (if e.HasFlag PositionConstraintType.X
          then (e.scaledResidual pred sp2).x else 0) ∧
      (e.residual pred sp2).y =
        (if e.HasFlag PositionConstraintType.Y
          then (e.scaledResidual pred sp2).y else 0) ∧
      (e.residual pred sp2).z =
        (if e.HasFlag PositionConstraintType.Z
          then (e.scaledResidual pred sp2).z else 0)) := by
  constructor
  · unfold AbsolutePositionError.residual AbsolutePositionError.applyAxisMask
      AbsolutePositionError.scaledResidual
    rw [hx, hy, hz]
    ext <;> simp [mul_comm]
  · intro e pred sp2
    unfold AbsolutePositionError.residual AbsolutePositionError.applyAxisMask
    refine ⟨?_, ?_, ?_⟩ <;> by_cases h : e.HasFlag PositionConstraintType.X = true <;>
      by_cases h2 : e.HasFlag PositionConstraintType.Y = true <;>
      by_cases h3 : e.HasFlag PositionConstraintType.Z = true <;>
      simp_all

/-- Witness for C3 with mask `2 = Y`. -/
theorem AbsolutePositionError.residual_mask_y_only_witness :
    (⟨⟨0, 5, 0⟩, 3, 7, false, 2⟩ : AbsolutePositionError).residual ⟨1, 1, 1⟩ 0 =
      ⟨0, 3 * ((⟨0, 5, 0⟩ : Vec3).y - (⟨1, 1, 1⟩ : Vec3).y), 0⟩ ∧
    (∀ (e : AbsolutePositionError) (pred : Vec3) (sp2 : ℝ),
      (e.residual pred sp2).x =
        (if e.HasFlag PositionConstraintType.X
          then (e.scaledResidual pred sp2).x else 0) ∧
      (e.residual pred sp2).y =
        (if e.HasFlag PositionConstraintType.Y
          then (e.scaledResidual pred sp2).y else 0) ∧
      (e.residual pred sp2).z =
        (if e.HasFlag PositionConstraintType.Z
          then (e.scaledResidual pred sp2).z else 0)) :=
  AbsolutePositionError.residual_mask_y_only ⟨0, 5, 0⟩ ⟨1, 1, 1⟩ 3 7 0 2 rfl rfl rfl

/-- C4: with `has_std_deviation_param = true` the pre-masking residual is
`prior - predicted` with every component (Z included) divided by the extra
standard-deviation parameter `p[1][0]`, and the fixed scales `scale_xy`,
`scale_z` do not enter (the result is invariant under changing them). -/
theorem AbsolutePositionError.scaledResidual_std_deviation_mode
    (prior predicted : Vec3) (sxy sz sxy2 sz2 sp : ℝ) (m m2 : ℕ) :
    (⟨prior, sxy, sz, true, m⟩ : AbsolutePositionError).scaledResidual predicted sp =
      ⟨(prior.x - predicted.x) / sp, (prior.y - predicted.y) / sp,
       (prior.z - predicted.z) / sp⟩ ∧
    (⟨prior, sxy, sz, true, m⟩ : AbsolutePositionError).scaledResidual predicted sp =
      (⟨prior, sxy2, sz2, true, m2⟩ : AbsolutePositionError).scaledResidual
        predicted sp := by
  constructor <;> simp [AbsolutePositionError.scaledResidual]

theorem Vec3.norm_pos (v : Vec3) (hv : v ≠ 0) : 0 < v.norm := by
  unfold Vec3.norm
  apply Real.sqrt_pos.mpr
  have h : v.x ≠ 0 ∨ v.y ≠ 0 ∨ v.z ≠ 0 := by
    by_contra h
    push_neg at h
    apply hv
    apply Vec3.ext <;> simp [h.1, h.2.1, h.2.2]
  rcases h with h | h | h
  · nlinarith [mul_self_nonneg v.y, mul_self_nonneg v.z, mul_self_pos.mpr h]
  · nlinarith [mul_self_nonneg v.x, mul_self_nonneg v.z, mul_self_pos.mpr h]
  · nlinarith [mul_self_nonneg v.x, mul_self_nonneg v.y, mul_self_pos.mpr h]

theorem Vec3.norm_smul (t : ℝ) (v : Vec3) : (t • v).norm = |t| * v.norm := by
  unfold Vec3.norm
  have h : (t • v).x * (t • v).x + (t • v).y * (t • v).y + (t • v).z * (t • v).z
      = (t * t) * (v.x * v.x + v.y * v.y + v.z * v.z) := by
    simp only [Vec3.smul_x, Vec3.smul_y, Vec3.smul_z]
    ring
  rw [h, Real.sqrt_mul (mul_self_nonneg t), Real.sqrt_mul_self_eq_abs]

/-- Normalizing is invariant under positive rescaling of a nonzero vector. -/
theorem Vec3.normalized_smul (t : ℝ) (v : Vec3) (ht : 0 < t) (hv : v ≠ 0) :
    (t • v).normalized = v.normalized := by
  have ht2 : t ≠ 0 := ne_of_gt ht
  have hn2 : v.norm ≠ 0 := ne_of_gt (Vec3.norm_pos v hv)
  unfold Vec3.normalized
  rw [Vec3.norm_smul, abs_of_pos ht]
  apply Vec3.ext <;>
    simp only [Vec3.smul_x, Vec3.smul_y, Vec3.smul_z] <;>
    field_simp <;> ring

/-- Modelled from the spec: `RotatePoint(R, v)` lives in
`bundle/error/error_utils.h`, which is not under `src/`; per the spec it
"applies the axis-angle rotation `R` to vector `v` using the standard
Rodrigues rotation-from-axis-angle transform" (`ceres::AngleAxisRotatePoint`
computes the same map).  With angle `t = |R|` and unit axis `u = R / t`:
`cos t * v + sin t * (u x v) + (1 - cos t) * (u . v) * u`; for `R = 0` this
reduces to `v`. -/
noncomputable def RotatePoint (R v : Vec3) : Vec3 :=
  (Real.cos R.norm) • v + (Real.sin R.norm) • (((R.norm)⁻¹ • R).cross v) +
    ((1 - Real.cos R.norm) * (((R.norm)⁻¹ • R).dot v)) • ((R.norm)⁻¹ • R)

/-- Modelled from the spec: `ShotRotationFunctor` lives in
`bundle/error/position_functors.h`, which is not under `src/`; per the spec,
for a non-rig shot it extracts the axis-angle rotation of the pose block,
whose layout is "rotation (3 values, axis-angle) followed by translation
(3 values)". -/
def ShotRotationFunctor (shot : Fin 6 → ℝ) : Vec3 := ⟨shot 0, shot 1, shot 2⟩

/-- State of an `UpVectorError` functor after construction. -/
structure UpVectorError where
  acceleration : Vec3
  is_rig_shot : Bool
  scale : ℝ

/-- The `UpVectorError` constructor (lines 76-80): stores the normalized
acceleration and `scale = 1/std_deviation`. -/
noncomputable def UpVectorError.make (acceleration : Vec3) (std_deviation : ℝ)
    (is_rig_shot : Bool) : UpVectorError :=
  ⟨acceleration.normalized, is_rig_shot, 1 / std_deviation⟩

/-- `UpVectorError::operator()` (lines 82-97): the parameter blocks enter only
through the axis-angle rotation `R` produced by `ShotRotationFunctor`
(instance index 0; camera index 1 when `is_rig_shot`), so the rotation is
taken as the argument here; the residual is
`scale * (RotatePoint R acceleration - (0,0,1))`. -/
noncomputable def UpVectorError.residual (e : UpVectorError) (R : Vec3) : Vec3 :=
  e.scale • (RotatePoint R e.acceleration - (⟨0, 0, 1⟩ : Vec3))

/-- C9: the constructor normalizes the acceleration, so scaling a nonzero
acceleration by a positive factor leaves the residual unchanged for every
rotation input (same std_deviation and rig flag). -/
theorem UpVectorError.residual_scaling_invariant (v : Vec3) (lam std_deviation : ℝ)
    (is_rig : Bool) (R : Vec3) (hv : v ≠ 0) (hlam : 0 < lam) :
    (UpVectorError.make (lam • v) std_deviation is_rig).residual R =
      (UpVectorError.make v std_deviation is_rig).residual R := by
  unfold UpVectorError.residual UpVectorError.make
  rw [Vec3.normalized_smul lam v hlam hv]

/-- Witness for C9 at `v = (0,0,1)`, `lam = 2`, zero rotation. -/
theorem UpVectorError.residual_scaling_invariant_witness :
    (UpVectorError.make ((2 : ℝ) • (⟨0, 0, 1⟩ : Vec3)) 1 false).residual ⟨0, 0, 0⟩ =
      (UpVectorError.make (⟨0, 0, 1⟩ : Vec3) 1 false).residual ⟨0, 0, 0⟩ :=
  UpVectorError.residual_scaling_invariant ⟨0, 0, 1⟩ 2 1 false ⟨0, 0, 0⟩
    (by intro h; have hz := congrArg Vec3.z h; simp at hz) (by norm_num)

/-- A 6-entry shot pose parameter block: rotation (3 axis-angle values)
followed by translation (3 values), the layout `UnitTranslationPriorError`
relies on when it reads `shot + 3`. -/
def shotBlock (r t : Vec3) : Fin 6 → ℝ
  | 0 => r.x
  | 1 => r.y
  | 2 => r.z
  | 3 => t.x
  | 4 => t.y
  | 5 => t.z

/-- `UnitTranslationPriorError::operator()` (lines 220-229): `t = shot + 3`
points at the translation and the residual is `log(t0² + t1² + t2²)`. -/
noncomputable def UnitTranslationPriorError.residual (shot : Fin 6 → ℝ) : ℝ :=
  Real.log (shot 3 * shot 3 + shot 4 * shot 4 + shot 5 * shot 5)

/-- C7: the scalar residual is the log of the squared norm of the translation
entries of the shot block, with no scale factor; for translation `(1,0,0)` it
is `0` and for `(2,0,0)` it is `log 4`, whatever the rotation entries. -/
theorem UnitTranslationPriorError.unit_translation_residual_spec :
    (∀ shot : Fin 6 → ℝ, UnitTranslationPriorError.residual shot =
      Real.log (shot 3 * shot 3 + shot 4 * shot 4 + shot 5 * shot 5)) ∧
    (∀ r : Vec3, UnitTranslationPriorError.residual (shotBlock r ⟨1, 0, 0⟩) = 0) ∧
    (∀ r : Vec3, UnitTranslationPriorError.residual (shotBlock r ⟨2, 0, 0⟩) =
      Real.log 4) := by
  refine ⟨fun shot => rfl, fun r => ?_, fun r => ?_⟩
  · show Real.log ((1 : ℝ) * 1 + 0 * 0 + 0 * 0) = 0
    norm_num
  · show Real.log ((2 : ℝ) * 2 + 0 * 0 + 0 * 0) = Real.log 4
    norm_num

/-- C10: `UnitTranslationPriorError` reads only entries 3-5 of the shot block;
two blocks agreeing there yield identical residuals, whatever their rotation
entries. -/
theorem UnitTranslationPriorError.residual_noninterference (s1 s2 : Fin 6 → ℝ)
    (h3 : s1 3 = s2 3) (h4 : s1 4 = s2 4) (h5 : s1 5 = s2 5) :
    UnitTranslationPriorError.residual s1 = UnitTranslationPriorError.residual s2 := by
  unfold UnitTranslationPriorError.residual
  rw [h3, h4, h5]

/-- Witness for C10: same translation `(1,2,3)`, rotations `(0,0,0)` and
`(9,8,7)`. -/
theorem UnitTranslationPriorError.residual_noninterference_witness :
    UnitTranslationPriorError.residual (shotBlock ⟨0, 0, 0⟩ ⟨1, 2, 3⟩) =
      UnitTranslationPriorError.residual (shotBlock ⟨9, 8, 7⟩ ⟨1, 2, 3⟩) :=
  UnitTranslationPriorError.residual_noninterference _ _ rfl rfl rfl

/-- C `atan2(a, b)` over the reals: the angle of the point with abscissa `b`
and ordinate `a`, i.e. the complex argument of `b + a*I`. -/
noncomputable def atan2 (a b : ℝ) : ℝ := Complex.arg ⟨b, a⟩

/-- State of a `PanAngleError` functor after construction (lines 101-103):
`scale = 1/std_deviation`. -/
structure PanAngleError where
  angle : ℝ
  scale : ℝ

/-- `PanAngleError::operator()` (lines 105-121): rotate `(0,0,1)` by the shot
rotation; output `0` when both x and y of the result are below `1e-8` in
magnitude, else `scale * diff_between_angles(atan2(x, y), angle)`. -/
noncomputable def PanAngleError.residual (e : PanAngleError) (shot : Fin 6 → ℝ) : ℝ :=
  let R := ShotRotationFunctor shot
  let z_world := RotatePoint R ⟨0, 0, 1⟩
  if |z_world.x| < 1e-8 ∧ |z_world.y| < 1e-8 then 0
  else e.scale * diff_between_angles (atan2 z_world.x z_world.y) e.angle

/-- C5: the residual is computed from `(0,0,1)` rotated by the shot rotation;
it is exactly `0` when both components are below `1e-8` in magnitude and
`scale * diff_between_angles(atan2(x, y), angle)` otherwise, with `x` the
first `atan2` argument; at zero rotation the rotated vertical is `(0,0,1)`
itself and the degenerate branch yields `0`. -/
theorem PanAngleError.pan_residual_spec (e : PanAngleError) (shot : Fin 6 → ℝ) :
    (PanAngleError.residual e shot =
      if |(RotatePoint (ShotRotationFunctor shot) ⟨0, 0, 1⟩).x| < 1e-8 ∧
          |(RotatePoint (ShotRotationFunctor shot) ⟨0, 0, 1⟩).y| < 1e-8
      then 0
      else e.scale * diff_between_angles
        (atan2 (RotatePoint (ShotRotationFunctor shot) ⟨0, 0, 1⟩).x
          (RotatePoint (ShotRotationFunctor shot) ⟨0, 0, 1⟩).y) e.angle) ∧
    (∀ t : Vec3, RotatePoint (ShotRotationFunctor (shotBlock ⟨0, 0, 0⟩ t)) ⟨0, 0, 1⟩ =
        ⟨0, 0, 1⟩ ∧
      PanAngleError.residual e (shotBlock ⟨0, 0, 0⟩ t) = 0) := by
  refine ⟨rfl, fun t => ?_⟩
  have hR : ShotRotationFunctor (shotBlock ⟨0, 0, 0⟩ t) = ⟨0, 0, 0⟩ := rfl
  have hn : (⟨0, 0, 0⟩ : Vec3).norm = 0 := by
    unfold Vec3.norm
    norm_num
  have hz : RotatePoint (⟨0, 0, 0⟩ : Vec3) ⟨0, 0, 1⟩ = ⟨0, 0, 1⟩ := by
    unfold RotatePoint
    rw [hn]
    apply Vec3.ext <;> simp [Vec3.cross, Vec3.dot]
  have hzz : RotatePoint (ShotRotationFunctor (shotBlock ⟨0, 0, 0⟩ t)) ⟨0, 0, 1⟩ =
      ⟨0, 0, 1⟩ := by
    rw [hR]
    exact hz
  refine ⟨hzz, ?_⟩
  simp only [PanAngleError.residual]
  rw [hzz, if_pos (by constructor <;> norm_num)]

/-- State of a `RollAngleError` functor after construction (lines 156-158):
`scale = 1/std_deviation`. -/
structure RollAngleError where
  angle : ℝ
  scale : ℝ

/-- `RollAngleError::operator()` (lines 160-188): rotate `(1,0,0)` and
`(0,0,1)`; form `a = (Rt_ez_y, -Rt_ez_x, 0)`; early-out `0` when
`sqrt(a0² + a1²) < 1e-5`; else divide the first two entries of `a` by that
length, take `b = Rt_ex x a`, `sin_roll = Rt_ez . b`; early-out `0` when
`sin_roll <= -(1 - 1e-5)`; else
`scale * diff_between_angles(asin(sin_roll), angle)`. -/
noncomputable def RollAngleError.residual (e : RollAngleError) (shot : Fin 6 → ℝ) : ℝ :=
  let R := ShotRotationFunctor shot
  let Rt_ex := RotatePoint R ⟨1, 0, 0⟩
  let Rt_ez := RotatePoint R ⟨0, 0, 1⟩
  let a : Vec3 := ⟨Rt_ez.y, -Rt_ez.x, 0⟩
  let la := Real.sqrt (a.x * a.x + a.y * a.y)
  if la < 1e-5 then 0
  else
    let an : Vec3 := ⟨a.x / la, a.y / la, a.z⟩
    let b := Rt_ex.cross an
    let sin_roll := Rt_ez.dot b
    if sin_roll ≤ -(1 - 1e-5) then 0
    else e.scale * diff_between_angles (Real.arcsin sin_roll) e.angle

theorem Vec3.norm_planar (p q : ℝ) :
    Vec3.norm ⟨p, q, 0⟩ = Real.sqrt (p * p + q * q) := by
  unfold Vec3.norm
  norm_num

theorem Vec3.normalized_planar (p q : ℝ) :
    Vec3.normalized ⟨p, q, 0⟩ =
      ⟨p / Real.sqrt (p * p + q * q), q / Real.sqrt (p * p + q * q), 0⟩ := by
  unfold Vec3.normalized
  rw [Vec3.norm_planar]
  apply Vec3.ext <;> simp [div_eq_mul_inv, mul_comm]

/-- C6: with `fwd` and `right` the rotated forward and right axes and
`a = (fwd_y, -fwd_x, 0)`, the residual is `0` when the Euclidean length of
`a` is below `1e-5`; otherwise, with `a` normalized, `b = right x a` and
`sin_roll = fwd . b`, it is `0` when `sin_roll <= -(1 - 1e-5)` and
`scale * diff_between_angles(asin(sin_roll), angle)` otherwise. -/
theorem RollAngleError.roll_residual_spec (e : RollAngleError) (shot : Fin 6 → ℝ) :
    RollAngleError.residual e shot =
      if Vec3.norm ⟨(RotatePoint (ShotRotationFunctor shot) ⟨0, 0, 1⟩).y,
          -(RotatePoint (ShotRotationFunctor shot) ⟨0, 0, 1⟩).x, 0⟩ < 1e-5
      then 0
      else
        if Vec3.dot (RotatePoint (ShotRotationFunctor shot) ⟨0, 0, 1⟩)
            (Vec3.cross (RotatePoint (ShotRotationFunctor shot) ⟨1, 0, 0⟩)
              (Vec3.normalized ⟨(RotatePoint (ShotRotationFunctor shot) ⟨0, 0, 1⟩).y,
                -(RotatePoint (ShotRotationFunctor shot) ⟨0, 0, 1⟩).x, 0⟩)) ≤
          -(1 - 1e-5)
        then 0
        else e.scale * diff_between_angles
          (Real.arcsin (Vec3.dot (RotatePoint (ShotRotationFunctor shot) ⟨0, 0, 1⟩)
            (Vec3.cross (RotatePoint (ShotRotationFunctor shot) ⟨1, 0, 0⟩)
              (Vec3.normalized ⟨(RotatePoint (ShotRotationFunctor shot) ⟨0, 0, 1⟩).y,
                -(RotatePoint (ShotRotationFunctor shot) ⟨0, 0, 1⟩).x, 0⟩))))
          e.angle := by
  rw [Vec3.norm_planar, Vec3.normalized_planar]
  rfl

/-- State of a `HeatmapdCostFunctor` after construction (lines 246-257):
offsets, raster dimensions, resolution, and `scale = 1/std_deviation`.  The
bicubic interpolator is an external read-only collaborator, entering the
evaluation as a function `interp row col`. -/
structure HeatmapdCostFunctor where
  x_offset : ℝ
  y_offset : ℝ
  height : ℝ
  width : ℝ
  resolution : ℝ
  scale : ℝ

/-- Line 264 of `operator()`: `row = height/2 - (pos_y - y_offset)/resolution`. -/
noncomputable def HeatmapdCostFunctor.row (f : HeatmapdCostFunctor) (position : Vec3) : ℝ :=
  f.height / 2 - (position.y - f.y_offset) / f.resolution

/-- Line 265 of `operator()`: `col = width/2 + (pos_x - x_offset)/resolution`. -/
noncomputable def HeatmapdCostFunctor.col (f : HeatmapdCostFunctor) (position : Vec3) : ℝ :=
  f.width / 2 + (position.x - f.x_offset) / f.resolution

/-- `HeatmapdCostFunctor::operator()` (lines 259-271): the shot position comes
from `ShotPositionFunctor` (`bundle/error/position_functors.h`, not under
`src/`), modelled from the spec as the computed world position and entering
as `position`; the residual is the interpolated value at `(row, col)` times
`scale`. -/
noncomputable def HeatmapdCostFunctor.residual (f : HeatmapdCostFunctor)
    (interp : ℝ → ℝ → ℝ) (position : Vec3) : ℝ :=
  interp (f.row position) (f.col position) * f.scale

/-- C8: the residual is `scale` times the interpolator sampled at
`row = height/2 - (pos_y - y_offset)/resolution`,
`col = width/2 + (pos_x - x_offset)/resolution`, and a position equal to the
origin offset (any altitude) samples `(height/2, width/2)`. -/
theorem HeatmapdCostFunctor.heatmap_residual_spec (f : HeatmapdCostFunctor)
    (interp : ℝ → ℝ → ℝ) (position : Vec3) :
    f.residual interp position =
      f.scale * interp (f.height / 2 - (position.y - f.y_offset) / f.resolution)
        (f.width / 2 + (position.x - f.x_offset) / f.resolution) ∧
    (∀ zc : ℝ, (HeatmapdCostFunctor.row f ⟨f.x_offset, f.y_offset, zc⟩,
        HeatmapdCostFunctor.col f ⟨f.x_offset, f.y_offset, zc⟩) =
      (f.height / 2, f.width / 2)) := by
  constructor
  · unfold HeatmapdCostFunctor.residual HeatmapdCostFunctor.row HeatmapdCostFunctor.col
    apply mul_comm
  · intro zc
    unfold HeatmapdCostFunctor.row HeatmapdCostFunctor.col
    norm_num

end bundle
